import Mathlib

/-!
Verification of the DQN drone-tracking repository against its specification.

The Python sources `DQNAgentSim.py` and `Detector.py` are shallowly embedded
below: mutable objects become Lean structures passed explicitly, NumPy arrays
become total functions from indices, Python floats are modelled by exact
rationals, and external effects (TensorFlow session evaluations, file writes)
are abstracted as parameters or recorded in explicit result fields.
Definitions come first, then the theorems about them.
-/

namespace DQNAgentSim

/-- A stored transition, as appended to the replay memory:
`(state, action, reward, done)`. -/
structure Transition (α : Type) where
  state : α
  action : ℕ
  reward : ℚ
  done : Bool

/-- Embedding of `ReplayMemory` (DQNAgentSim.py lines 11-100).
The parallel NumPy arrays `_states`, `_actions`, `_rewards`, `_terminals`
are modelled as total functions from the array index; only indices below
`maxSize` are ever read by reachable code. -/
structure ReplayMemory (α : Type) where
  pos : ℕ
  count : ℕ
  maxSize : ℕ
  historyLength : ℕ
  states : ℕ → α
  actions : ℕ → ℕ
  rewards : ℕ → ℚ
  terminals : ℕ → Bool

namespace ReplayMemory

/-- `ReplayMemory.__init__(size, sample_shape, history_length)`: cursor and
count start at zero, `history_length` is floored to at least 1, and every
array cell starts zeroed (`zero` stands for the all-zero state frame). -/
def fresh {α : Type} (size historyLength : ℕ) (zero : α) : ReplayMemory α :=
  { pos := 0
    count := 0
    maxSize := size
    historyLength := max 1 historyLength
    states := fun _ => zero
    actions := fun _ => 0
    rewards := fun _ => 0
    terminals := fun _ => false }

/-- `ReplayMemory.append(state, action, reward, done)` (lines 34-46): writes
the transition at the cursor, then `count = max(count, pos + 1)` and
`pos = (pos + 1) % maxSize`.  (The shape assertion cannot fail in the typed
model: every `α` value has the declared sample shape.) -/
def append {α : Type} (m : ReplayMemory α) (state : α) (action : ℕ)
    (reward : ℚ) (done : Bool) : ReplayMemory α :=
  { m with
    states := fun i => if i = m.pos then state else m.states i
    actions := fun i => if i = m.pos then action else m.actions i
    rewards := fun i => if i = m.pos then reward else m.rewards i
    terminals := fun i => if i = m.pos then done else m.terminals i
    count := max m.count (m.pos + 1)
    pos := (m.pos + 1) % m.maxSize }

/-- Appending a whole list of transitions in order, first element first. -/
def appendAll {α : Type} (m : ReplayMemory α) : List (Transition α) → ReplayMemory α
  | [] => m
  | tr :: trs => (m.append tr.state tr.action tr.reward tr.done).appendAll trs

/-- `ReplayMemory.get_state(index)` (lines 84-100).  Raising
`IndexError('Empty Memory')` is modelled as `Except.error "Empty Memory"`.
`index %= self._count` is Python `%` with a positive modulus, which agrees
with `Int.emod`.  The slice branch `self._states[(index-(h-1)) : index+1]`
yields the `h` frames ending at `index`; the other branch is
`np.take(..., mode='wrap')` over `np.arange(index-h+1, index+1)`, which
reduces each (possibly negative) position modulo the full array length
`maxSize`. -/
def getState {α : Type} (m : ReplayMemory α) (index : ℤ) : Except String (List α) :=
  if m.count = 0 then Except.error "Empty Memory"
  else if m.historyLength ≤ (index % (m.count : ℤ)).toNat then
    Except.ok ((List.range m.historyLength).map
      (fun k => m.states ((index % (m.count : ℤ)).toNat - (m.historyLength - 1) + k)))
  else
    Except.ok ((List.range m.historyLength).map
      (fun (k : ℕ) => m.states
        (((((index % (m.count : ℤ)).toNat : ℤ) - (m.historyLength : ℤ) + 1 + (k : ℤ))
          % (m.maxSize : ℤ)).toNat)))

end ReplayMemory

/-! ### DeepQAgent constants (DQNAgentSim.py lines 135-152), exact values -/

def GAMMA : ℚ := 99 / 100
def EXPLORATION_STEPS : ℕ := 10000
def INITIAL_EPSILON : ℚ := 1
def FINAL_EPSILON : ℚ := 1 / 10
def INITIAL_REPLAY_SIZE : ℕ := 10000
def TARGET_UPDATE_INTERVAL : ℕ := 10000
def TRAIN_AFTER : ℕ := 500
def TRAIN_INTERVAL : ℕ := 4
def SAVE_INTERVAL : ℕ := 10000

/-- `self.epsilon_step = (INITIAL_EPSILON - FINAL_EPSILON) / EXPLORATION_STEPS`
(line 157). -/
def epsilonStep : ℚ := (INITIAL_EPSILON - FINAL_EPSILON) / (EXPLORATION_STEPS : ℚ)

/-- The epsilon update performed by one `act()` call (lines 251-253):
`if self.epsilon > FINAL_EPSILON and self.t >= INITIAL_REPLAY_SIZE:
self.epsilon -= self.epsilon_step`.  The action choice itself does not
touch `epsilon`, so only the global step `t` at call time matters. -/
def actEpsilon (t : ℕ) (eps : ℚ) : ℚ :=
  if FINAL_EPSILON < eps ∧ INITIAL_REPLAY_SIZE ≤ t then eps - epsilonStep else eps

/-- Epsilon after a sequence of `act()` calls, given the value of `t` at
each call. -/
def runActs (eps : ℚ) : List ℕ → ℚ
  | [] => eps
  | t :: ts => runActs (actEpsilon t eps) ts

/-- How many of the `act()` calls in the trace actually fired the epsilon
decrement (their guard `epsilon > FINAL_EPSILON and t >= INITIAL_REPLAY_SIZE`
held). -/
def decrements (eps : ℚ) : List ℕ → ℕ
  | [] => 0
  | t :: ts =>
      (if FINAL_EPSILON < eps ∧ INITIAL_REPLAY_SIZE ≤ t then 1 else 0) +
        decrements (actEpsilon t eps) ts

/-- The per-episode accumulators of `DeepQAgent` touched by `observe`. -/
structure EpisodeState where
  totalReward : ℚ
  totalQMax : ℚ
  totalLoss : ℚ
  duration : ℕ
  episode : ℕ

/-- Embedding of `DeepQAgent.observe(old_state, action, reward, done)`
(lines 259-311) restricted to the accumulator fields.  `qmax` stands for the
network evaluation `np.max(self.q_values.eval(...))`, an external number.
The source contains `self.total_reward += reward` twice (lines 262 and 265),
which the embedding reproduces faithfully.  On `done` all per-episode
accumulators are reset and `episode` is incremented (lines 301-305). -/
def observe (qmax reward : ℚ) (done : Bool) (s : EpisodeState) : EpisodeState :=
  let s1 : EpisodeState := { s with totalReward := s.totalReward + reward }
  let s2 : EpisodeState := { s1 with totalReward := s1.totalReward + reward }
  let s3 : EpisodeState :=
    { s2 with totalQMax := s2.totalQMax + qmax, duration := s2.duration + 1 }
  if done then
    { s3 with totalReward := 0, totalQMax := 0, totalLoss := 0,
              duration := 0, episode := s3.episode + 1 }
  else s3

/-- The agent fields read or written by `train()`. -/
structure TrainState where
  numActionsTaken : ℕ
  t : ℕ
  totalLoss : ℚ

/-- Which external effects one `train()` call performed. -/
structure TrainEffects where
  networkUpdated : Bool
  targetSynced : Bool
  checkpointSaved : Bool

/-- Embedding of `DeepQAgent.train()` (lines 313-346).  `lossDelta` stands
for the scalar loss returned by the gradient step inside `train_network`
(line 357), an external number accumulated into `total_loss`.  The structure
of the nested guards mirrors the source: the whole body is gated on
`agent_step >= TRAIN_AFTER` and `agent_step % TRAIN_INTERVAL == 0`; the three
periodic effects are further gated on `t >= INITIAL_REPLAY_SIZE`, and
`t += 1` sits at the level of the `agent_step % TRAIN_INTERVAL` branch. -/
def train (lossDelta : ℚ) (s : TrainState) : TrainState × TrainEffects :=
  if TRAIN_AFTER ≤ s.numActionsTaken then
    if s.numActionsTaken % TRAIN_INTERVAL = 0 then
      if INITIAL_REPLAY_SIZE ≤ s.t then
        ({ s with
            t := s.t + 1
            totalLoss :=
              if s.t % TRAIN_INTERVAL = 0 then s.totalLoss + lossDelta else s.totalLoss },
          { networkUpdated := decide (s.t % TRAIN_INTERVAL = 0)
            targetSynced := decide (s.t % TARGET_UPDATE_INTERVAL = 0)
            checkpointSaved := decide (s.t % SAVE_INTERVAL = 0) })
      else ({ s with t := s.t + 1 }, ⟨false, false, false⟩)
    else (s, ⟨false, false, false⟩)
  else (s, ⟨false, false, false⟩)

/-- The per-element training target of `train_network` (line 355):
`y_batch = reward_batch + (1 - terminal_batch) * GAMMA * np.max(target_q_values_batch, axis=1)`.
`maxQ` stands for the target network's maximal Q-value on the post-state;
`terminal` is the stored float flag, 1 for a terminal transition, 0 else. -/
def trainTarget (reward terminal maxQ : ℚ) : ℚ :=
  reward + (1 - terminal) * GAMMA * maxQ

/-- The NumPy line 355 is elementwise over the minibatch: the whole batch of
targets from parallel lists of `(reward, terminal, maxQ)`. -/
def yBatch : List (ℚ × ℚ × ℚ) → List ℚ
  | [] => []
  | x :: xs => trainTarget x.1 x.2.1 x.2.2 :: yBatch xs

/-! ### Concrete replay memories used to witness the theorems below -/

/-- Capacity-5, history-2 memory holding five non-terminal transitions with
state frames 10, 20, 30, 40, 50. -/
def mem5 : ReplayMemory ℚ :=
  (ReplayMemory.fresh 5 2 (0 : ℚ)).appendAll
    [⟨10, 0, 0, false⟩, ⟨20, 1, 0, false⟩, ⟨30, 2, 0, false⟩,
     ⟨40, 3, 0, false⟩, ⟨50, 4, 0, false⟩]

/-- Eight arbitrary transitions, to overfill a capacity-5 memory by three. -/
def ts8 : List (Transition ℚ) :=
  [⟨1, 0, 0, false⟩, ⟨2, 0, 0, false⟩, ⟨3, 0, 0, false⟩, ⟨4, 0, 0, false⟩,
   ⟨5, 0, 0, false⟩, ⟨6, 0, 0, false⟩, ⟨7, 0, 0, false⟩, ⟨8, 0, 0, false⟩]

end DQNAgentSim

namespace Detector

/-- One detection instance produced by the frozen model: confidence score,
class id, and normalized box `(ymin, xmin, ymax, xmax)` (Detector.py
lines 163-174). -/
structure Detection where
  score : ℚ
  classId : ℕ
  box : ℚ × ℚ × ℚ × ℚ

/-- `min_score_thresh = 0.7` (Detector.py line 35). -/
def min_score_thresh : ℚ := 7 / 10

/-- The class-id to class-name lookup built from the COCO label map
(`self.category_index`); id 10 is "traffic light" in that label map. -/
def cocoIndex : ℕ → Option String :=
  fun i => if i = 10 then some "traffic light" else none

/-- The scan over detections at the end of `Detector.detect` (Detector.py
lines 163-185), for an image array of NumPy shape `(shape0, shape1, 3)`
where `shape0` is the pixel height and `shape1` the pixel width.  The source
line 167 is `im_width, im_height = image_np.shape[0:2]`, so the embedding
binds `im_width := shape0` (the height) and `im_height := shape1` (the
width), exactly as the code does.  A detection qualifies when
`scores[i] > min_score_thresh` and its class id resolves to
"traffic light"; the first qualifying detection is returned, and falling
off the end of the loop returns Python `None`, modelled as `none`. -/
def trafficLightBox (categoryIndex : ℕ → Option String) (shape0 shape1 : ℕ) :
    List Detection → Option (ℚ × ℚ × ℚ × ℚ)
  | [] => none
  | d :: ds =>
    if min_score_thresh < d.score ∧ categoryIndex d.classId = some "traffic light" then
      let ymin := d.box.1
      let xmin := d.box.2.1
      let ymax := d.box.2.2.1
      let xmax := d.box.2.2.2
      let im_width : ℚ := shape0
      let im_height : ℚ := shape1
      let left := xmin * im_width
      let right := xmax * im_width
      let top := ymin * im_height
      let bottom := ymax * im_height
      some ((left + right - im_width) / 2, (top + bottom - im_height) / 2,
            right - left, bottom - top)
    else trafficLightBox categoryIndex shape0 shape1 ds

/-- The two NumPy buffers alive during `Detector.detect`: the caller's
array `image_np` and the fresh copy `image` made on line 144. -/
inductive Buf
  | caller
  | copy
deriving DecidableEq

/-- What `Detector.detect` leaves behind, beyond its return value. -/
structure DetectOutcome (Image : Type) where
  heap : Buf → Image
  savedToDisk : Image
  bbox : Option (ℚ × ℚ × ℚ × ℚ)

/-- Buffer-level embedding of `Detector.detect(image_np)` (Detector.py
lines 143-185).  `annotate` stands for
`vis_util.visualize_boxes_and_labels_on_image_array`, which draws boxes in
place on the array it is given; `ds` are the detections returned by
`run_inference_for_single_image(image_np)` (which only reads its argument:
`np.expand_dims` allocates a new array).  Line 144 `image = image_np.copy()`
creates the `copy` buffer with the caller's contents; line 149 annotates the
`copy` buffer in place; line 161 `mpimg.imsave('detect.jpg', image)` writes
the `copy` buffer to disk. -/
def detect {Image : Type} (annotate : Image → Image) (image_np : Image)
    (categoryIndex : ℕ → Option String) (shape0 shape1 : ℕ)
    (ds : List Detection) : DetectOutcome Image :=
  let h0 : Buf → Image := fun _ => image_np
  let h1 : Buf → Image := fun b => if b = Buf.copy then annotate (h0 Buf.copy) else h0 b
  { heap := h1
    savedToDisk := h1 Buf.copy
    bbox := trafficLightBox categoryIndex shape0 shape1 ds }

end Detector

/-! ## Theorems -/

namespace DQNAgentSim

namespace ReplayMemory

theorem append_maxSize {α : Type} (m : ReplayMemory α) (s : α) (a : ℕ) (r : ℚ) (d : Bool) :
    (m.append s a r d).maxSize = m.maxSize := rfl

/-- Cursor/count recurrence: starting from a state that looks like
"`k` appends have happened into an `N`-sized memory", a further list of
appends keeps that shape. -/
theorem appendAll_pos_count {α : Type} {N : ℕ} (hN : 0 < N) :
    ∀ (trs : List (Transition α)) (m : ReplayMemory α) (k : ℕ),
      m.maxSize = N → m.pos = k % N → m.count = min k N →
      (m.appendAll trs).maxSize = N ∧
      (m.appendAll trs).pos = (k + trs.length) % N ∧
      (m.appendAll trs).count = min (k + trs.length) N := by
  intro trs
  induction trs with
  | nil =>
    intro m k hsize hpos hcount
    simp [appendAll, hsize, hpos, hcount]
  | cons tr trs ih =>
    intro m k hsize hpos hcount
    have hstep :
        (m.append tr.state tr.action tr.reward tr.done).maxSize = N ∧
        (m.append tr.state tr.action tr.reward tr.done).pos = (k + 1) % N ∧
        (m.append tr.state tr.action tr.reward tr.done).count = min (k + 1) N := by
      refine ⟨by simpa [append] using hsize, ?_, ?_⟩
      · show (m.pos + 1) % m.maxSize = (k + 1) % N
        rw [hsize, hpos, Nat.mod_add_mod]
      · show max m.count (m.pos + 1) = min (k + 1) N
        rw [hcount, hpos]
        rcases lt_or_le k N with hk | hk
        · rw [Nat.mod_eq_of_lt hk]
          omega
        · have hlt : k % N < N := Nat.mod_lt _ hN
          omega
    have h := ih (m.append tr.state tr.action tr.reward tr.done) (k + 1)
      hstep.1 hstep.2.1 hstep.2.2
    simpa [appendAll, Nat.add_assoc, Nat.add_comm, Nat.add_left_comm] using h

end ReplayMemory

/-- C4: from a fresh memory of capacity `N > 0`, after `k` appends
`count = min k N` and `pos = k % N`; in particular after `N + 3` appends
`count = N` and `pos = 3 % N`; `count ≤ N` in every reachable state, and a
single `append` never decreases `count`. -/
theorem c4_replay_counters {α : Type} (N h : ℕ) (z : α) (hN : 0 < N)
    (trs : List (Transition α)) :
    ((ReplayMemory.fresh N h z).appendAll trs).count = min trs.length N ∧
    ((ReplayMemory.fresh N h z).appendAll trs).pos = trs.length % N ∧
    ((ReplayMemory.fresh N h z).appendAll trs).count ≤ N ∧
    (∀ (m : ReplayMemory α) (tr : Transition α),
      m.count ≤ (m.append tr.state tr.action tr.reward tr.done).count) ∧
    (trs.length = N + 3 →
      ((ReplayMemory.fresh N h z).appendAll trs).count = N ∧
      ((ReplayMemory.fresh N h z).appendAll trs).pos = 3 % N) := by
  have key := ReplayMemory.appendAll_pos_count hN trs (ReplayMemory.fresh N h z) 0
    rfl (by simp [ReplayMemory.fresh]) (by simp [ReplayMemory.fresh])
  obtain ⟨-, hpos, hcount⟩ := key
  simp only [Nat.zero_add] at hpos hcount
  refine ⟨hcount, hpos, ?_, ?_, ?_⟩
  · rw [hcount]; exact min_le_right _ _
  · intro m tr
    exact le_max_left _ _
  · intro hlen
    constructor
    · rw [hcount, hlen]
      omega
    · rw [hpos, hlen, Nat.add_mod_left]

/-- Witness for C4 at capacity 5 with 8 appends: count is 5 and the
cursor is 3. -/
theorem c4_witness :
    ((ReplayMemory.fresh 5 2 (0 : ℚ)).appendAll ts8).count = 5 ∧
    ((ReplayMemory.fresh 5 2 (0 : ℚ)).appendAll ts8).pos = 3 := by
  have h := (c4_replay_counters 5 2 (0 : ℚ) (by norm_num) ts8).2.2.2.2 rfl
  simpa using h

end DQNAgentSim

namespace DQNAgentSim

/-- C6: `get_state(i)` fails with "Empty Memory" exactly when `count = 0`,
and returns a state (no error of any kind) whenever `count > 0`. -/
theorem c6_empty_memory {α : Type} (m : ReplayMemory α) (i : ℤ) :
    (m.getState i = Except.error "Empty Memory" ↔ m.count = 0) ∧
    (0 < m.count → ∃ l, m.getState i = Except.ok l) := by
  constructor
  · constructor
    · intro herr
      by_contra hc
      unfold ReplayMemory.getState at herr
      rw [if_neg hc] at herr
      split at herr <;> exact Except.noConfusion herr
    · intro hc
      unfold ReplayMemory.getState
      rw [if_pos hc]
  · intro hc
    unfold ReplayMemory.getState
    rw [if_neg (Nat.pos_iff_ne_zero.mp hc)]
    split <;> exact ⟨_, rfl⟩

/-- Witness for C6: the empty capacity-5 memory errors with "Empty Memory",
and the filled memory `mem5` returns a state. -/
theorem c6_witness :
    (ReplayMemory.fresh 5 2 (0 : ℚ)).getState 0 = Except.error "Empty Memory" ∧
    ∃ l, mem5.getState 0 = Except.ok l :=
  ⟨(c6_empty_memory (ReplayMemory.fresh 5 2 (0 : ℚ)) 0).1.mpr rfl,
   (c6_empty_memory mem5 0).2 (by decide)⟩

/-- C5: on a non-empty memory, `get_state` first reduces the index modulo
`count`; when the reduced index `j` is at least `history_length` it returns
the contiguous frames from `j + 1 - history_length` through `j`, otherwise a
wrap-around gather (modulo the storage size) over positions
`j - history_length + 1` through `j`; either way exactly `history_length`
frames come back. -/
theorem c5_get_state_window {α : Type} (m : ReplayMemory α) (i : ℤ)
    (hc : 0 < m.count) (hh : 1 ≤ m.historyLength) :
    ∃ l : List α, m.getState i = Except.ok l ∧ l.length = m.historyLength ∧
      (m.historyLength ≤ (i % (m.count : ℤ)).toNat →
        l = (List.range m.historyLength).map
          (fun k => m.states ((i % (m.count : ℤ)).toNat + 1 - m.historyLength + k))) ∧
      ((i % (m.count : ℤ)).toNat < m.historyLength →
        l = (List.range m.historyLength).map
          (fun (k : ℕ) => m.states
            (((i % (m.count : ℤ)) - (m.historyLength : ℤ) + 1 + (k : ℤ))
              % (m.maxSize : ℤ)).toNat)) := by
  have hcast : (((i % (m.count : ℤ)).toNat : ℤ)) = i % (m.count : ℤ) :=
    Int.toNat_of_nonneg (Int.emod_nonneg i (by exact_mod_cast hc.ne'))
  unfold ReplayMemory.getState
  rw [if_neg (Nat.pos_iff_ne_zero.mp hc)]
  by_cases hcase : m.historyLength ≤ (i % (m.count : ℤ)).toNat
  · rw [if_pos hcase]
    refine ⟨_, rfl, by simp, ?_, ?_⟩
    · intro _
      apply List.map_congr_left
      intro k _
      congr 1
      omega
    · intro hlt
      omega
  · rw [if_neg hcase]
    refine ⟨_, rfl, by simp, ?_, ?_⟩
    · intro hle
      omega
    · intro _
      apply List.map_congr_left
      intro k _
      congr 2
      rw [hcast]

/-- Witness for C5 on `mem5` (capacity 5, history 2, five appends) at
index 3: the state exists and has exactly `historyLength` frames. -/
theorem c5_witness :
    ∃ l : List ℚ, mem5.getState 3 = Except.ok l ∧ l.length = mem5.historyLength := by
  obtain ⟨l, h1, h2, -⟩ := c5_get_state_window mem5 3 (by decide) (by decide)
  exact ⟨l, h1, h2⟩

end DQNAgentSim

namespace DQNAgentSim

theorem epsilonStep_eq : epsilonStep = 9 / 100000 := by
  norm_num [epsilonStep, INITIAL_EPSILON, FINAL_EPSILON, EXPLORATION_STEPS]

/-- The decrement guard `epsilon > FINAL_EPSILON` holds at
`epsilon = INITIAL_EPSILON - d * epsilon_step` exactly while fewer than
`EXPLORATION_STEPS` decrements have happened. -/
theorem final_lt_iff (d : ℕ) (hd : d ≤ EXPLORATION_STEPS) :
    (FINAL_EPSILON < INITIAL_EPSILON - (d : ℚ) * epsilonStep ↔ d < EXPLORATION_STEPS) := by
  rw [epsilonStep_eq]
  simp only [INITIAL_EPSILON, FINAL_EPSILON, EXPLORATION_STEPS] at *
  constructor
  · intro hlt
    by_contra hge
    have hEq : d = 10000 := by omega
    rw [hEq] at hlt
    norm_num at hlt
  · intro hlt
    have h9 : (d : ℚ) ≤ 9999 := by
      have h' : d ≤ 9999 := by omega
      exact_mod_cast h'
    linarith


/-- Closed form along any trace of `act()` calls: epsilon equals its initial
value minus one `epsilon_step` per fired decrement, and at most
`EXPLORATION_STEPS` decrements ever fire. -/
theorem runActs_closed_form :
    ∀ (ts : List ℕ) (d : ℕ), d ≤ EXPLORATION_STEPS →
      runActs (INITIAL_EPSILON - (d : ℚ) * epsilonStep) ts
        = INITIAL_EPSILON
          - ((d + decrements (INITIAL_EPSILON - (d : ℚ) * epsilonStep) ts : ℕ) : ℚ)
              * epsilonStep ∧
      d + decrements (INITIAL_EPSILON - (d : ℚ) * epsilonStep) ts ≤ EXPLORATION_STEPS := by
  intro ts
  induction ts with
  | nil =>
    intro d hd
    simp [runActs, decrements, hd]
  | cons t ts ih =>
    intro d hd
    by_cases hg : FINAL_EPSILON < INITIAL_EPSILON - (d : ℚ) * epsilonStep ∧
        INITIAL_REPLAY_SIZE ≤ t
    · have hdlt : d < EXPLORATION_STEPS := (final_lt_iff d hd).mp hg.1
      have hstep : actEpsilon t (INITIAL_EPSILON - (d : ℚ) * epsilonStep)
          = INITIAL_EPSILON - ((d + 1 : ℕ) : ℚ) * epsilonStep := by
        unfold actEpsilon
        rw [if_pos hg]
        push_cast
        ring
      have ih1 := ih (d + 1) (by omega)
      have hrun : runActs (INITIAL_EPSILON - (d : ℚ) * epsilonStep) (t :: ts)
          = runActs (INITIAL_EPSILON - ((d + 1 : ℕ) : ℚ) * epsilonStep) ts := by
        simp only [runActs]
        rw [hstep]
      have hdec : decrements (INITIAL_EPSILON - (d : ℚ) * epsilonStep) (t :: ts)
          = 1 + decrements (INITIAL_EPSILON - ((d + 1 : ℕ) : ℚ) * epsilonStep) ts := by
        simp only [decrements]
        rw [if_pos hg, hstep]
      have hb := ih1.2
      constructor
      · rw [hrun, hdec, ih1.1]
        push_cast
        ring
      · rw [hdec]
        omega
    · have hstep : actEpsilon t (INITIAL_EPSILON - (d : ℚ) * epsilonStep)
          = INITIAL_EPSILON - (d : ℚ) * epsilonStep := by
        unfold actEpsilon
        rw [if_neg hg]
      have ih0 := ih d hd
      have hrun : runActs (INITIAL_EPSILON - (d : ℚ) * epsilonStep) (t :: ts)
          = runActs (INITIAL_EPSILON - (d : ℚ) * epsilonStep) ts := by
        simp only [runActs]
        rw [hstep]
      have hdec : decrements (INITIAL_EPSILON - (d : ℚ) * epsilonStep) (t :: ts)
          = decrements (INITIAL_EPSILON - (d : ℚ) * epsilonStep) ts := by
        simp only [decrements]
        rw [if_neg hg, hstep, Nat.zero_add]
      have hb := ih0.2
      constructor
      · rw [hrun, hdec, ih0.1]
      · rw [hdec]
        omega

/-- Along the canonical trace where every call happens with
`t ≥ INITIAL_REPLAY_SIZE`, each of the first `EXPLORATION_STEPS` calls
fires the decrement. -/
theorem runActs_replicate :
    ∀ (n d : ℕ), d + n ≤ EXPLORATION_STEPS →
      runActs (INITIAL_EPSILON - (d : ℚ) * epsilonStep)
          (List.replicate n INITIAL_REPLAY_SIZE)
        = INITIAL_EPSILON - (((d + n : ℕ)) : ℚ) * epsilonStep := by
  intro n
  induction n with
  | zero =>
    intro d hd
    simp [runActs]
  | succ n ih =>
    intro d hd
    have hdlt : d < EXPLORATION_STEPS := by omega
    have hg : FINAL_EPSILON < INITIAL_EPSILON - (d : ℚ) * epsilonStep ∧
        INITIAL_REPLAY_SIZE ≤ INITIAL_REPLAY_SIZE :=
      ⟨(final_lt_iff d (by omega)).mpr hdlt, le_refl _⟩
    have hstep : actEpsilon INITIAL_REPLAY_SIZE (INITIAL_EPSILON - (d : ℚ) * epsilonStep)
        = INITIAL_EPSILON - ((d + 1 : ℕ) : ℚ) * epsilonStep := by
      unfold actEpsilon
      rw [if_pos hg]
      push_cast
      ring
    rw [List.replicate_succ]
    have hrun : runActs (INITIAL_EPSILON - (d : ℚ) * epsilonStep)
          (INITIAL_REPLAY_SIZE :: List.replicate n INITIAL_REPLAY_SIZE)
        = runActs (INITIAL_EPSILON - ((d + 1 : ℕ) : ℚ) * epsilonStep)
            (List.replicate n INITIAL_REPLAY_SIZE) := by
      simp only [runActs]
      rw [hstep]
    rw [hrun, ih (d + 1) (by omega)]
    push_cast
    ring

/-- C3: each `act()` call whose guard `epsilon > FINAL_EPSILON` and
`t ≥ INITIAL_REPLAY_SIZE` holds subtracts exactly `epsilon_step`; along any
trace from `INITIAL_EPSILON`, epsilon equals `INITIAL_EPSILON` minus one
step per fired decrement, at most `EXPLORATION_STEPS` decrements fire,
`FINAL_EPSILON ≤ epsilon ≤ INITIAL_EPSILON` is invariant, and after exactly
`EXPLORATION_STEPS` decrements (the canonical all-ready trace) epsilon is
exactly `FINAL_EPSILON = 1/10`. -/
theorem c3_epsilon_annealing (ts : List ℕ) :
    (∀ (t : ℕ) (e : ℚ), FINAL_EPSILON < e → INITIAL_REPLAY_SIZE ≤ t →
        actEpsilon t e = e - epsilonStep) ∧
    runActs INITIAL_EPSILON ts
      = INITIAL_EPSILON - ((decrements INITIAL_EPSILON ts : ℕ) : ℚ) * epsilonStep ∧
    decrements INITIAL_EPSILON ts ≤ EXPLORATION_STEPS ∧
    (FINAL_EPSILON ≤ runActs INITIAL_EPSILON ts ∧
      runActs INITIAL_EPSILON ts ≤ INITIAL_EPSILON) ∧
    runActs INITIAL_EPSILON (List.replicate EXPLORATION_STEPS INITIAL_REPLAY_SIZE)
      = FINAL_EPSILON := by
  have h0 : INITIAL_EPSILON - ((0 : ℕ) : ℚ) * epsilonStep = INITIAL_EPSILON := by
    push_cast
    ring
  have key := runActs_closed_form ts 0 (by omega)
  rw [h0] at key
  simp only [Nat.zero_add] at key
  have hrep := runActs_replicate EXPLORATION_STEPS 0 (by omega)
  rw [h0] at hrep
  simp only [Nat.zero_add] at hrep
  obtain ⟨hclosed, hbound⟩ := key
  refine ⟨?_, hclosed, hbound, ⟨?_, ?_⟩, ?_⟩
  · intro t e he ht
    unfold actEpsilon
    rw [if_pos ⟨he, ht⟩]
  · rw [hclosed, epsilonStep_eq]
    have h1 : decrements INITIAL_EPSILON ts ≤ 10000 := by
      simpa [EXPLORATION_STEPS] using hbound
    have h2 : ((decrements INITIAL_EPSILON ts : ℕ) : ℚ) ≤ 10000 := by exact_mod_cast h1
    show (1 / 10 : ℚ) ≤ 1 - ((decrements INITIAL_EPSILON ts : ℕ) : ℚ) * (9 / 100000)
    linarith
  · rw [hclosed, epsilonStep_eq]
    have h3 : (0 : ℚ) ≤ ((decrements INITIAL_EPSILON ts : ℕ) : ℚ) * (9 / 100000) :=
      mul_nonneg (Nat.cast_nonneg _) (by norm_num)
    show (1 : ℚ) - ((decrements INITIAL_EPSILON ts : ℕ) : ℚ) * (9 / 100000) ≤ 1
    linarith
  · rw [hrep, epsilonStep_eq]
    show (1 : ℚ) - ((EXPLORATION_STEPS : ℕ) : ℚ) * (9 / 100000) = 1 / 10
    norm_num [EXPLORATION_STEPS]

/-- Witness for C3: at `t = 10000 ≥ INITIAL_REPLAY_SIZE` and
`epsilon = 1 > FINAL_EPSILON`, one `act()` call subtracts exactly one
`epsilon_step`. -/
theorem c3_witness : actEpsilon 10000 (1 : ℚ) = 1 - epsilonStep :=
  (c3_epsilon_annealing []).1 10000 1
    (by norm_num [FINAL_EPSILON]) (by norm_num [INITIAL_REPLAY_SIZE])

end DQNAgentSim

namespace DQNAgentSim

/-- C1 (code bug): `observe` adds `reward` to `total_reward` twice
(DQNAgentSim.py lines 262 and 265), so on a non-terminal observation the
accumulator grows by `2 * reward`, not by `reward`; at the concrete failing
input `reward = 1`, `done = False` from a zeroed state it ends at 2. -/
theorem c1_total_reward_doubled :
    (observe 0 1 false ⟨0, 0, 0, 0, 0⟩).totalReward = 2 ∧
    ∀ (s : EpisodeState) (q r : ℚ), (observe q r false s).totalReward = s.totalReward + 2 * r := by
  constructor
  · norm_num [observe]
  · intro s q r
    simp only [observe, Bool.false_eq_true, if_false]
    ring

/-- C7: `y_batch` is elementwise
`reward + (1 - terminal) * GAMMA * maxQ` with `GAMMA = 99/100`, and at
`reward = 1`, `terminal = 0`, `maxQ = 2` the target is `149/50 = 2.98`. -/
theorem c7_training_target :
    (∀ r term q : ℚ, trainTarget r term q = r + (1 - term) * (99 / 100) * q) ∧
    (∀ xs : List (ℚ × ℚ × ℚ), yBatch xs = xs.map (fun x => x.1 + (1 - x.2.1) * (99 / 100) * x.2.2)) ∧
    trainTarget 1 0 2 = 149 / 50 := by
  refine ⟨fun r term q => by norm_num [trainTarget, GAMMA], ?_, by norm_num [trainTarget, GAMMA]⟩
  intro xs
  induction xs with
  | nil => simp [yBatch]
  | cons x xs ih => simp [yBatch, ih, trainTarget, GAMMA]

/-- C8: `train()` is a complete no-op (state unchanged, no network update,
no target sync, no checkpoint) while `num_actions_taken < TRAIN_AFTER`;
a network update, and any advance of `t`, can only happen on calls where
`num_actions_taken ≥ TRAIN_AFTER` and `num_actions_taken` is a multiple of
`TRAIN_INTERVAL`. -/
theorem c8_train_gate (lossDelta : ℚ) (s : TrainState) :
    (s.numActionsTaken < TRAIN_AFTER →
      train lossDelta s = (s, ⟨false, false, false⟩)) ∧
    ((train lossDelta s).2.networkUpdated = true →
      TRAIN_AFTER ≤ s.numActionsTaken ∧ s.numActionsTaken % TRAIN_INTERVAL = 0) ∧
    ((train lossDelta s).1.t ≠ s.t →
      TRAIN_AFTER ≤ s.numActionsTaken ∧ s.numActionsTaken % TRAIN_INTERVAL = 0) := by
  refine ⟨?_, ?_, ?_⟩
  · intro hlt
    unfold train
    rw [if_neg (by omega)]
  · intro hupd
    unfold train at hupd
    split_ifs at hupd with h1 h2 h3 h4 <;> exact ⟨h1, h2⟩
  · intro ht
    unfold train at ht
    split_ifs at ht with h1 h2 h3 h4 <;>
      first
      | exact ⟨h1, h2⟩
      | simp at ht

/-- Witness for C8: at `num_actions_taken = 3 < 500` a `train()` call
changes nothing and performs no effect. -/
theorem c8_witness : train 0 ⟨3, 0, 0⟩ = (⟨3, 0, 0⟩, ⟨false, false, false⟩) :=
  (c8_train_gate 0 ⟨3, 0, 0⟩).1 (by norm_num [TRAIN_AFTER])

end DQNAgentSim

namespace Detector

/-- C9: when no detection has both a score strictly above
`min_score_thresh = 0.7` and a class resolving to "traffic light", the scan
in `detect` falls off the end of the loop and yields no bounding box. -/
theorem c9_no_qualifying_detection (categoryIndex : ℕ → Option String)
    (shape0 shape1 : ℕ) (ds : List Detection)
    (h : ∀ d ∈ ds,
      ¬(min_score_thresh < d.score ∧ categoryIndex d.classId = some "traffic light")) :
    trafficLightBox categoryIndex shape0 shape1 ds = none := by
  induction ds with
  | nil => rfl
  | cons d ds ih =>
    simp only [trafficLightBox]
    rw [if_neg (h d (List.mem_cons_self d ds))]
    exact ih fun d' hd' => h d' (List.mem_cons_of_mem _ hd')

/-- Witness for C9: one traffic light below threshold and one
above-threshold detection of a different class produce no result. -/
theorem c9_witness :
    trafficLightBox cocoIndex 100 100
      [⟨3 / 5, 10, (0, 0, 1, 1)⟩, ⟨9 / 10, 1, (0, 0, 1, 1)⟩] = none := by
  apply c9_no_qualifying_detection
  intro d hd
  simp only [List.mem_cons, List.not_mem_nil, or_false] at hd
  rcases hd with h | h
  · subst h
    simp [cocoIndex, min_score_thresh]
    norm_num
  · subst h
    simp [cocoIndex, min_score_thresh]

/-- C2 (code bug): `detect` binds `im_width` to `shape[0]` (the pixel
height) and `im_height` to `shape[1]` (the pixel width), so on a
non-square 200x100 image the returned geometry disagrees with the
specified `left = xmin * W`, `top = ymin * H` formulas — the code yields
`(-20, -20, 80, 40)` where the claim's formulas give `(-10, -40, 40, 80)`.
On a square 100x100 image with box `(0.4, 0.4, 0.6, 0.6)` and score 0.9 the
swap is invisible and the claimed `(0, 0, 20, 20)` does come out. -/
theorem c2_axes_swapped :
    trafficLightBox cocoIndex 200 100 [⟨9 / 10, 10, (1 / 10, 1 / 5, 1 / 2, 3 / 5)⟩]
      = some (-20, -20, 80, 40) ∧
    trafficLightBox cocoIndex 100 100 [⟨9 / 10, 10, (2 / 5, 2 / 5, 3 / 5, 3 / 5)⟩]
      = some (0, 0, 20, 20) := by
  refine ⟨?_, ?_⟩
  · simp only [trafficLightBox, cocoIndex, min_score_thresh]
    norm_num
  · simp only [trafficLightBox, cocoIndex, min_score_thresh]
    norm_num

/-- C10: `detect` never writes the caller's array: the annotation is drawn
on the copy made on Detector.py line 144, that copy is what reaches
`detect.jpg`, and the caller's buffer still holds the original image after
the call. -/
theorem c10_detect_preserves_caller {Image : Type} (annotate : Image → Image)
    (image_np : Image) (categoryIndex : ℕ → Option String) (shape0 shape1 : ℕ)
    (ds : List Detection) :
    (detect annotate image_np categoryIndex shape0 shape1 ds).heap Buf.caller = image_np ∧
    (detect annotate image_np categoryIndex shape0 shape1 ds).savedToDisk
      = annotate image_np := by
  constructor <;> simp [detect]

end Detector
